import Mathlib

/-!
Shallow embedding of the deep-research orchestrator of this repository
(the agent in src/agents/orchestrator/index.ts, together with the split
multi-agent variant and the shared zod schemas).  The data model, the
search round, query expansion, learning extraction, the recursive
deepResearch driver and the request schema are translated directly from
the TypeScript source.  The language-model and web-search capabilities
are external collaborators; they are modelled as oracle parameters
(an `Oracles` record): each oracle gives the value the capability
returns for exactly the data the source embeds in the corresponding
prompt.  The mutable module-level record plus thrown exceptions are
modelled by explicit state passing: every stateful operation returns
the final record together with an optional error, so that the record
state at the moment an exception propagates is preserved.
-/

/-- The `SearchResult` type of the source: `{title, url, content}`,
produced by the Exa search capability. -/
structure SearchResult where
  title : String
  url : String
  content : String
deriving DecidableEq, Repr

/-- The `Learning` type of the source: a learning plus follow-up
questions, produced by `generateLearnings`. -/
structure Learning where
  learning : String
  followUpQuestions : List String
deriving DecidableEq, Repr

/-- The `Research` type of the source.  In the orchestrator file the
`query` field has TypeScript type `string | undefined`, embedded here
as `Option String`. -/
structure Research where
  query : Option String
  queries : List String
  searchResults : List SearchResult
  learnings : List Learning
  completedQueries : List String
deriving DecidableEq, Repr

/-- The initial value of the module-level `accumulatedResearch`
constant (source lines 71-77): all sequences empty, `query`
undefined.  In the source this is initialized once per process, not
once per request. -/
def accumulatedResearch : Research :=
  { query := none, queries := [], searchResults := [], learnings := [], completedQueries := [] }

/-- The two-label output space of the relevance evaluation
(`output: "enum", enum: ["relevant", "irrelevant"]`). -/
inductive Verdict where
  | relevant
  | irrelevant
deriving DecidableEq, Repr

/-- The error raised when a generation capability returns a value its
zod schema rejects (the AI SDK throws in that case); the spec calls
this `GenerationError`. -/
inductive GenError where
  | generation
deriving DecidableEq, Repr

/-- One tool invocation of the agentic loop inside `searchAndProcess`
(source lines 119-164).  The model driving `generateText` chooses, for
up to `maxSteps = 5` steps, either a `searchWeb` call (whose web
results are data chosen by the environment, hence carried in the
step) or an `evaluate` call. -/
inductive RoundStep where
  | search (results : List SearchResult)
  | evaluate
deriving Repr

/-- The external capabilities, as oracles.  `genQueries` is the raw
query list the model produces for the `generateSearchQueries` prompt,
before zod validation; `script` is the sequence of tool calls the
model makes in one `searchAndProcess` round, as a function of the
round's query and of the accumulated sources passed to the round;
`evalVerdict` is the enum the model returns for the `EVAL_PROMPT`
built from a query, the pending result and the URL list of the
existing results; `genLearning` is the structured object the model
returns for the `generateLearnings` prompt built from a query and a
search result. -/
structure Oracles where
  genQueries : String → List String
  script : String → List SearchResult → List RoundStep
  evalVerdict : String → SearchResult → List String → Verdict
  genLearning : String → SearchResult → Learning

/-- The relevance evaluation (the `evaluate` tool body, source lines
143-148, and the standalone evaluator agent): one `generateObject`
call on `EVAL_PROMPT(query, pendingResult, results)`.  The prompt
embeds the query, the full pending result, and only the URLs of the
existing results (`results.map((result) => result.url)`), so the
oracle consumes exactly those three values. -/
def evaluateResult (evalVerdict : String → SearchResult → List String → Verdict)
    (query : String) (pendingResult : SearchResult)
    (results : List SearchResult) : Verdict :=
  evalVerdict query pendingResult (results.map SearchResult.url)

/-- The mutable state of one `searchAndProcess` round: the
`pendingSearchResults` stack and the `finalSearchResults` list
(source lines 116-117). -/
structure RoundState where
  pending : List SearchResult
  final : List SearchResult
deriving Repr

/-- One step of the round.  `searchWeb` pushes its results onto the
pending stack (`pendingSearchResults.push(...results)`); `evaluate`
pops the most recent pending result (`pendingSearchResults.pop()`
removes the last element), evaluates it against the accumulated
sources, and appends it to the final results iff the verdict is
`relevant` (source lines 126-162). -/
def roundStep (evalVerdict : String → SearchResult → List String → Verdict)
    (query : String) (sources : List SearchResult)
    (st : RoundState) : RoundStep → RoundState
  | .search results => ⟨st.pending ++ results, st.final⟩
  | .evaluate =>
    match st.pending.getLast? with
    | none => st
    | some pendingResult =>
      match evaluateResult evalVerdict query pendingResult sources with
      | .relevant => ⟨st.pending.dropLast, st.final ++ [pendingResult]⟩
      | .irrelevant => ⟨st.pending.dropLast, st.final⟩

/-- The round runner `searchAndProcess(query, accumulatedSources)` (source lines
112-166): run the agentic loop given by `script` from empty pending
and final lists and return `finalSearchResults`.  The accumulated
sources are read but never written by the round. -/
def searchAndProcess (evalVerdict : String → SearchResult → List String → Verdict)
    (script : List RoundStep) (query : String)
    (sources : List SearchResult) : List SearchResult :=
  (script.foldl (roundStep evalVerdict query sources) ⟨[], []⟩).final

/-- The prompt of `generateSearchQueries` (source line 86). -/
def genQueriesPrompt (n : Nat) (query : String) : String :=
  "Generate " ++ toString n ++ " search queries for the following query: " ++ query

/-- The query expander `generateSearchQueries(query, n)` (source lines 81-92): one
`generateObject` call validated against the zod schema
`z.array(z.string()).min(1).max(5)`.  The schema bounds are the
constants 1 and 5 — they do not depend on `n` — and a model output
outside them makes the call throw. -/
def generateSearchQueries (genQueries : String → List String)
    (query : String) (n : Nat) : Except GenError (List String) :=
  let queries := genQueries (genQueriesPrompt n query)
  if 1 ≤ queries.length ∧ queries.length ≤ 5 then .ok queries
  else .error GenError.generation

/-- JavaScript truthiness of the `query : string | undefined` field:
`!accumulatedResearch.query` is true when the field is `undefined` or
the empty string. -/
def queryIsFalsy : Option String → Bool
  | none => true
  | some s => s.isEmpty

/-- The entry step of `deepResearch` (source lines 169-171): set the
record's `query` to the incoming prompt iff the field is still falsy. -/
def entry (r : Research) (prompt : String) : Research :=
  if queryIsFalsy r.query then { r with query := some prompt } else r

/-- The reflection prompt built for each recursive call (source lines
193-199): the current frame's `prompt`, the joined `completedQueries`
log, and the current learning's follow-up questions. -/
def reflectionPrompt (prompt : String) (completedQueries : List String)
    (followUpQuestions : List String) : String :=
  "Overall research goal: " ++ prompt
    ++ "\n          Previous search queries: "
    ++ String.intercalate ", " completedQueries
    ++ "\n   \n          Follow-up questions: "
    ++ String.intercalate ", " followUpQuestions
    ++ "\n          "

/-- The halving `Math.ceil(breadth / 2)` on a natural number. -/
def ceilHalf (n : Nat) : Nat := (n + 1) / 2

/-- The inner for-loop of `deepResearch` (source lines 187-201): for
each search result of the round, extract a learning, append it to
`learnings`, append the sub-query to `completedQueries`, build the
reflection prompt, and recurse (`recur` is the recursive call of the
enclosing frame, already carrying the decremented budget).  An error
from the recursion propagates, keeping the record state reached so
far. -/
def processResults (o : Oracles) (recur : String → Research → Research × Option GenError)
    (prompt q : String) : List SearchResult → Research → Research × Option GenError
  | [], r => (r, none)
  | sr :: srs, r =>
    let lg := o.genLearning q sr
    let r1 := { r with learnings := r.learnings ++ [lg],
                       completedQueries := r.completedQueries ++ [q] }
    let newQuery := reflectionPrompt prompt r1.completedQueries lg.followUpQuestions
    match recur newQuery r1 with
    | (r2, some e) => (r2, some e)
    | (r2, none) => processResults o recur prompt q srs r2

/-- The outer for-loop of `deepResearch` (source lines 180-202): for
each expanded sub-query, run a search round against the current
accumulated `searchResults`, append the whole round output to
`searchResults`, then process the round's results. -/
def processQueries (o : Oracles) (recur : String → Research → Research × Option GenError)
    (prompt : String) : List String → Research → Research × Option GenError
  | [], r => (r, none)
  | q :: qs, r =>
    let found := searchAndProcess o.evalVerdict (o.script q r.searchResults) q r.searchResults
    let r1 := { r with searchResults := r.searchResults ++ found }
    match processResults o recur prompt q found r1 with
    | (r2, some e) => (r2, some e)
    | (r2, none) => processQueries o recur prompt qs r2

/-- The driver `deepResearch(prompt, depth, breadth)` (source lines 168-204),
with the module-level record passed explicitly.  The entry step runs
before the `depth === 0` test; expansion failure propagates after the
entry step and before the `queries` overwrite; each recursive call
uses `depth - 1` and `Math.ceil(breadth / 2)`. -/
def deepResearch (o : Oracles) : Nat → String → Nat → Research → Research × Option GenError
  | 0, prompt, _, r0 => (entry r0 prompt, none)
  | d + 1, prompt, breadth, r0 =>
    let r := entry r0 prompt
    match generateSearchQueries o.genQueries prompt breadth with
    | .error e => (r, some e)
    | .ok queries =>
      processQueries o (fun newQuery r2 => deepResearch o d newQuery (ceilHalf breadth) r2)
        prompt queries { r with queries := queries }

/-- A top-level request payload as a JSON object, restricted to the
fields of interest: the value under the key `query`, and integer
values under the keys `depth`, `deepth` and `breadth` (absent keys
are `none`).  The source schema reads only `query`, `deepth` and
`breadth`; a zod object is non-strict, so any other key — including
`depth` — is stripped without error. -/
structure Payload where
  query : Option String
  depth : Option Int
  deepth : Option Int
  breadth : Option Int
deriving DecidableEq, Repr

/-- The request fields surviving `researchSchema.parse`. -/
structure ParsedRequest where
  query : String
  deepth : Option Int
  breadth : Option Int
deriving DecidableEq, Repr

/-- An optional numeric field constrained by `z.number().min(1).max(5)
.optional()`: absent is accepted, present values must lie in [1, 5]. -/
def checkOptRange : Option Int → Option (Option Int)
  | none => some none
  | some x => if 1 ≤ x ∧ x ≤ 5 then some (some x) else none

/-- The request parser `researchSchema.parse` (source lines 216-220): `query` must be a
string of length ≥ 1 (`z.string().min(1)`), the optional numeric
fields are read under the keys `deepth` and `breadth`, and unknown
keys such as `depth` are dropped.  `none` is a `ValidationError`. -/
def researchSchemaParse (p : Payload) : Option ParsedRequest :=
  match p.query, checkOptRange p.deepth, checkOptRange p.breadth with
  | some q, some d, some b => if 1 ≤ q.length then some ⟨q, d, b⟩ else none
  | _, _, _ => none

/-- The depth the handler passes to `deepResearch` (source line 225:
`const depth = request.deepth ?? 2;`), when the payload parses. -/
def agentDepthUsed (p : Payload) : Option Int :=
  (researchSchemaParse p).map (fun req => req.deepth.getD 2)

/-- The handler of one top-level request (source lines 222-236),
acting on the module-level record `state`: parse the payload (on
validation failure the record is untouched and no research runs),
then run `deepResearch` with `deepth ?? 2` and `breadth ?? 3` on the
same record.  `generateReport` reads the record without mutating it,
so the record state a later request observes is the state
`deepResearch` left. -/
def agentHandle (o : Oracles) (state : Research) (p : Payload) : Research :=
  match researchSchemaParse p with
  | none => state
  | some req =>
    (deepResearch o (req.deepth.getD 2).toNat req.query (req.breadth.getD 3).toNat state).1

/-! ### Properties of the oracles and of the record -/

/-- The generation capability honors the duplicate-suppression
instruction of `EVAL_PROMPT` ("If the page already exists in the
existing results, mark it as irrelevant"): whenever the candidate's
URL is among the existing URLs embedded in the prompt, the returned
enum is `irrelevant`.  The source enforces this only through the
prompt text, so it is a hypothesis on the model, not a code
guarantee. -/
def Suppressing (evalVerdict : String → SearchResult → List String → Verdict) : Prop :=
  ∀ q r urls, r.url ∈ urls → evalVerdict q r urls = Verdict.irrelevant

/-- Every single search round accepts pairwise-distinct URLs.  The
source has no code enforcing this either: the evaluator only sees the
sources accumulated before the round began, not the results already
accepted within the same round. -/
def IntraNodup (o : Oracles) : Prop :=
  ∀ q sources,
    ((searchAndProcess o.evalVerdict (o.script q sources) q sources).map SearchResult.url).Nodup

/-- The record's `searchResults` URLs are pairwise distinct. -/
def UrlsNodup (r : Research) : Prop :=
  (r.searchResults.map SearchResult.url).Nodup

/-- Record `b` extends record `a`: same `query`, and the three
append-only sequences of `a` are prefixes of those of `b` (the
`queries` field is overwritten at every expansion and excluded). -/
def Extends (a b : Research) : Prop :=
  b.query = a.query ∧ a.searchResults <+: b.searchResults
    ∧ a.learnings <+: b.learnings ∧ a.completedQueries <+: b.completedQueries

/-- The pair `(q, sr)` was produced by a search round: `sr` is among
the results the round for sub-query `q` accepted against some
accumulated source set. -/
def RoundProduced (o : Oracles) (p : String × SearchResult) : Prop :=
  ∃ sources, p.2 ∈ searchAndProcess o.evalVerdict (o.script p.1 sources) p.1 sources

/-- Record `b` extends record `a` by a list of `(sub-query, result)`
pairs processed in order: the new learnings are exactly the learnings
extracted from those pairs, the new completed queries are exactly the
sub-queries of those pairs (position by position), and every pair was
produced by a search round for its sub-query. -/
def PairedExt (o : Oracles) (a b : Research) : Prop :=
  ∃ ps : List (String × SearchResult),
    b.learnings = a.learnings ++ ps.map (fun p => o.genLearning p.1 p.2)
      ∧ b.completedQueries = a.completedQueries ++ ps.map Prod.fst
      ∧ ∀ p ∈ ps, RoundProduced o p

/-! ### Concrete data for the counterexamples and witnesses -/

/-- A duplicate-suppressing verdict oracle: `irrelevant` exactly when
the candidate URL is among the existing URLs. -/
def dedupVerdict : String → SearchResult → List String → Verdict :=
  fun _ r urls => if r.url ∈ urls then Verdict.irrelevant else Verdict.relevant

/-- Two distinct documents sharing one URL. -/
def rs1 : SearchResult := ⟨"t1", "https://u", "c1"⟩

/-- Two distinct documents sharing one URL. -/
def rs2 : SearchResult := ⟨"t2", "https://u", "c2"⟩

/-- Oracles for the duplicate-append run: one sub-query, whose round
finds `rs1` and `rs2` (same URL) in two `searchWeb` calls and accepts
both, the evaluator being duplicate-suppressing. -/
def oDup : Oracles where
  genQueries := fun _ => ["sub"]
  script := fun _ sources =>
    if sources.length = 0 then [.search [rs1], .search [rs2], .evaluate, .evaluate] else []
  evalVerdict := dedupVerdict
  genLearning := fun _ _ => ⟨"L", []⟩

/-- Trivial oracles: empty rounds, a single echoed sub-query. -/
def oTriv : Oracles where
  genQueries := fun _ => ["sub"]
  script := fun _ _ => []
  evalVerdict := dedupVerdict
  genLearning := fun _ _ => ⟨"L", []⟩

/-- Oracles whose expansion capability returns the empty list. -/
def oEmptyGen : Oracles where
  genQueries := fun _ => []
  script := fun _ _ => []
  evalVerdict := dedupVerdict
  genLearning := fun _ _ => ⟨"L", []⟩

/-- An expansion capability answering five queries to every prompt. -/
def genFive : String → List String :=
  fun _ => ["a", "b", "c", "d", "e"]

/-- Result with URL `https://a`, found by the first-level round of the
nested-reflection run. -/
def raDoc : SearchResult := ⟨"ta", "https://a", "ca"⟩

/-- Result with URL `https://b`, found by the second-level round of
the nested-reflection run. -/
def rbDoc : SearchResult := ⟨"tb", "https://b", "cb"⟩

/-- Oracles for the nested-reflection run: the expansion capability
echoes its prompt as the single sub-query, so the `queries` field of
the final record exposes the prompt of the deepest expanding frame;
rounds find one fresh document at recursion levels one and two and
nothing deeper. -/
def oEcho : Oracles where
  genQueries := fun p => [p]
  script := fun _ sources =>
    if sources.length = 0 then [.search [raDoc], .evaluate]
    else if sources.length = 1 then [.search [rbDoc], .evaluate]
    else []
  evalVerdict := fun _ _ _ => Verdict.relevant
  genLearning := fun _ _ => ⟨"L", ["f"]⟩

/-- The sub-query expanded by the top frame of the nested-reflection
run (the echoed expansion prompt for the goal). -/
def q0Echo : String := genQueriesPrompt 1 "goal"

/-- The reflection prompt the top frame builds: its goal part is the
original query `goal`. -/
def p1Echo : String := reflectionPrompt "goal" [q0Echo] ["f"]

/-- The sub-query expanded by the level-one frame (the echoed
expansion prompt for `p1Echo`). -/
def q1Echo : String := genQueriesPrompt 1 p1Echo

/-- The reflection prompt the level-one frame builds: its goal part
is `p1Echo`, the parent's reflection prompt, not the original query. -/
def p2Echo : String := reflectionPrompt p1Echo [q0Echo, q1Echo] ["f"]

/-- Oracles for the cross-request run: one sub-query per frame, a
round that finds `raDoc` when the accumulated sources are still
empty and nothing afterwards. -/
def oSeed : Oracles where
  genQueries := fun _ => ["sub"]
  script := fun _ sources => if sources.length = 0 then [.search [raDoc], .evaluate] else []
  evalVerdict := dedupVerdict
  genLearning := fun _ _ => ⟨"L", []⟩

/-- The record state the cross-request run leaves after its first
request (query `a`, default budgets). -/
def seededState : Research :=
  { query := some "a", queries := ["sub"], searchResults := [raDoc],
    learnings := [⟨"L", []⟩], completedQueries := ["sub"] }

/-! ### Helper lemmas -/

/-- Invariant of the round loop: under a duplicate-suppressing
verdict oracle, every result in the final list has a URL outside the
accumulated sources. -/
theorem foldl_roundStep_final_not_mem
    (evalVerdict : String → SearchResult → List String → Verdict)
    (q : String) (sources : List SearchResult)
    (hs : Suppressing evalVerdict) :
    ∀ (script : List RoundStep) (st : RoundState),
      (∀ x ∈ st.final, x.url ∉ sources.map SearchResult.url) →
      ∀ x ∈ (script.foldl (roundStep evalVerdict q sources) st).final,
        x.url ∉ sources.map SearchResult.url := by
  intro script
  induction script with
  | nil => intro st h; simpa using h
  | cons step script ih =>
    intro st h
    rw [List.foldl_cons]
    apply ih
    intro x hx
    cases step with
    | search results =>
      simp only [roundStep] at hx
      exact h x hx
    | evaluate =>
      simp only [roundStep] at hx
      cases hl : st.pending.getLast? with
      | none => rw [hl] at hx; exact h x hx
      | some pendingResult =>
        rw [hl] at hx
        dsimp only at hx
        cases hv : evaluateResult evalVerdict q pendingResult sources with
        | relevant =>
          rw [hv] at hx
          simp only [List.mem_append, List.mem_singleton] at hx
          rcases hx with hx | rfl
          · exact h x hx
          · intro hmem
            have := hs q x (sources.map SearchResult.url) hmem
            rw [evaluateResult] at hv
            rw [this] at hv
            exact Verdict.noConfusion hv
        | irrelevant =>
          rw [hv] at hx
          exact h x hx

/-- Under a duplicate-suppressing verdict oracle, a search round
never accepts a result whose URL is already among the accumulated
sources it was given. -/
theorem searchAndProcess_url_not_mem
    (evalVerdict : String → SearchResult → List String → Verdict)
    (hs : Suppressing evalVerdict)
    (script : List RoundStep) (q : String) (sources : List SearchResult) :
    ∀ x ∈ searchAndProcess evalVerdict script q sources,
      x.url ∉ sources.map SearchResult.url := by
  intro x hx
  exact foldl_roundStep_final_not_mem evalVerdict q sources hs script ⟨[], []⟩
    (by intro y hy; simp at hy) x hx

/-- Unfolding of `processResults` on a non-empty result list. -/
theorem processResults_cons (o : Oracles) (recur : String → Research → Research × Option GenError)
    (prompt q : String) (sr : SearchResult) (srs : List SearchResult) (r : Research) :
    processResults o recur prompt q (sr :: srs) r =
      match recur (reflectionPrompt prompt (r.completedQueries ++ [q])
          (o.genLearning q sr).followUpQuestions)
          { r with learnings := r.learnings ++ [o.genLearning q sr],
                   completedQueries := r.completedQueries ++ [q] } with
      | (r2, some e) => (r2, some e)
      | (r2, none) => processResults o recur prompt q srs r2 := rfl

/-- Unfolding of `processQueries` on a non-empty sub-query list. -/
theorem processQueries_cons (o : Oracles) (recur : String → Research → Research × Option GenError)
    (prompt q : String) (qs : List String) (r : Research) :
    processQueries o recur prompt (q :: qs) r =
      match processResults o recur prompt q
          (searchAndProcess o.evalVerdict (o.script q r.searchResults) q r.searchResults)
          { r with searchResults := r.searchResults ++ searchAndProcess o.evalVerdict (o.script q r.searchResults) q r.searchResults } with
      | (r2, some e) => (r2, some e)
      | (r2, none) => processQueries o recur prompt qs r2 := rfl

/-- Unfolding of `deepResearch` at positive depth: the budget of every
recursive call is `depth - 1` and `ceilHalf breadth`. -/
theorem deepResearch_succ (o : Oracles) (d : Nat) (prompt : String) (b : Nat) (r : Research) :
    deepResearch o (d + 1) prompt b r =
      match generateSearchQueries o.genQueries prompt b with
      | .error e => (entry r prompt, some e)
      | .ok queries =>
        processQueries o (fun newQuery r2 => deepResearch o d newQuery (ceilHalf b) r2)
          prompt queries { entry r prompt with queries := queries } := rfl

/-- Generic invariance of the inner result loop: any reflexive
transitive relation preserved by the learning/completed-query append
of each processed result and by the recursive call relates the input
record to the output record. -/
theorem processResults_rel (o : Oracles) (recur : String → Research → Research × Option GenError)
    (prompt q : String) (R : Research → Research → Prop)
    (Rrefl : ∀ a, R a a)
    (Rtrans : ∀ a b c, R a b → R b c → R a c)
    (Hrec : ∀ nq r1, R r1 (recur nq r1).1) :
    ∀ (srs : List SearchResult) (r : Research),
      (∀ sr ∈ srs, ∀ r2 : Research,
        R r2 { r2 with learnings := r2.learnings ++ [o.genLearning q sr],
                       completedQueries := r2.completedQueries ++ [q] }) →
      R r (processResults o recur prompt q srs r).1 := by
  intro srs
  induction srs with
  | nil =>
    intro r _
    exact Rrefl r
  | cons sr srs ih =>
    intro r Hpair
    rw [processResults_cons]
    have h1 : R r { r with learnings := r.learnings ++ [o.genLearning q sr],
                           completedQueries := r.completedQueries ++ [q] } :=
      Hpair sr (List.mem_cons_self sr srs) r
    cases hcall : recur (reflectionPrompt prompt (r.completedQueries ++ [q])
        (o.genLearning q sr).followUpQuestions)
        { r with learnings := r.learnings ++ [o.genLearning q sr],
                 completedQueries := r.completedQueries ++ [q] } with
    | mk r2 e =>
      have h2 : R { r with learnings := r.learnings ++ [o.genLearning q sr],
                           completedQueries := r.completedQueries ++ [q] } r2 := by
        have h3 := Hrec (reflectionPrompt prompt (r.completedQueries ++ [q])
            (o.genLearning q sr).followUpQuestions)
            { r with learnings := r.learnings ++ [o.genLearning q sr],
                     completedQueries := r.completedQueries ++ [q] }
        rw [hcall] at h3
        exact h3
      cases e with
      | none =>
        exact Rtrans _ _ _ (Rtrans _ _ _ h1 h2)
          (ih r2 (fun sr2 h r3 => Hpair sr2 (List.mem_cons_of_mem sr h) r3))
      | some e =>
        exact Rtrans _ _ _ h1 h2

/-- Generic invariance of the outer sub-query loop. -/
theorem processQueries_rel (o : Oracles) (recur : String → Research → Research × Option GenError)
    (prompt : String) (R : Research → Research → Prop)
    (Rrefl : ∀ a, R a a)
    (Rtrans : ∀ a b c, R a b → R b c → R a c)
    (Hrec : ∀ nq r1, R r1 (recur nq r1).1)
    (Hround : ∀ (q : String) (r : Research),
      R r { r with searchResults := r.searchResults ++ searchAndProcess o.evalVerdict (o.script q r.searchResults) q r.searchResults })
    (Hpair : ∀ (q : String) (sr : SearchResult), RoundProduced o (q, sr) →
      ∀ r2 : Research,
        R r2 { r2 with learnings := r2.learnings ++ [o.genLearning q sr],
                       completedQueries := r2.completedQueries ++ [q] }) :
    ∀ (qs : List String) (r : Research), R r (processQueries o recur prompt qs r).1 := by
  intro qs
  induction qs with
  | nil =>
    intro r
    exact Rrefl r
  | cons q qs ih =>
    intro r
    rw [processQueries_cons]
    have h1 : R r { r with searchResults := r.searchResults ++ searchAndProcess o.evalVerdict (o.script q r.searchResults) q r.searchResults } :=
      Hround q r
    cases hcall : processResults o recur prompt q
        (searchAndProcess o.evalVerdict (o.script q r.searchResults) q r.searchResults)
        { r with searchResults := r.searchResults ++ searchAndProcess o.evalVerdict (o.script q r.searchResults) q r.searchResults } with
    | mk r2 e =>
      have h2 : R { r with searchResults := r.searchResults ++ searchAndProcess o.evalVerdict (o.script q r.searchResults) q r.searchResults } r2 := by
        have h3 := processResults_rel o recur prompt q R Rrefl Rtrans Hrec
          (searchAndProcess o.evalVerdict (o.script q r.searchResults) q r.searchResults)
          { r with searchResults := r.searchResults ++ searchAndProcess o.evalVerdict (o.script q r.searchResults) q r.searchResults }
          (fun sr hsr r3 => Hpair q sr ⟨r.searchResults, hsr⟩ r3)
        rw [hcall] at h3
        exact h3
      cases e with
      | none => exact Rtrans _ _ _ (Rtrans _ _ _ h1 h2) (ih r2)
      | some e => exact Rtrans _ _ _ h1 h2

/-- Generic invariance of the whole recursion: any reflexive
transitive relation preserved by the entry step, the `queries`
overwrite, the round append and the per-result appends relates the
input record to the final record, at every depth and breadth. -/
theorem deepResearch_rel (o : Oracles) (R : Research → Research → Prop)
    (Rrefl : ∀ a, R a a)
    (Rtrans : ∀ a b c, R a b → R b c → R a c)
    (Hentry : ∀ (prompt : String) (r : Research), R r (entry r prompt))
    (Hqueries : ∀ (qs : List String) (r : Research), R r { r with queries := qs })
    (Hround : ∀ (q : String) (r : Research),
      R r { r with searchResults := r.searchResults ++ searchAndProcess o.evalVerdict (o.script q r.searchResults) q r.searchResults })
    (Hpair : ∀ (q : String) (sr : SearchResult), RoundProduced o (q, sr) →
      ∀ r2 : Research,
        R r2 { r2 with learnings := r2.learnings ++ [o.genLearning q sr],
                       completedQueries := r2.completedQueries ++ [q] }) :
    ∀ (d : Nat) (prompt : String) (b : Nat) (r : Research),
      R r (deepResearch o d prompt b r).1 := by
  intro d
  induction d with
  | zero =>
    intro prompt b r
    exact Hentry prompt r
  | succ d ih =>
    intro prompt b r
    rw [deepResearch_succ]
    cases hgen : generateSearchQueries o.genQueries prompt b with
    | error e => exact Hentry prompt r
    | ok queries =>
      have h1 : R r (entry r prompt) := Hentry prompt r
      have h2 : R (entry r prompt) { entry r prompt with queries := queries } :=
        Hqueries queries (entry r prompt)
      have h3 := processQueries_rel o
        (fun newQuery r2 => deepResearch o d newQuery (ceilHalf b) r2) prompt R Rrefl Rtrans
        (fun nq r1 => ih nq (ceilHalf b) r1) Hround Hpair queries
        { entry r prompt with queries := queries }
      exact Rtrans _ _ _ (Rtrans _ _ _ h1 h2) h3

/-- The entry step never changes the `queries` field. -/
theorem entry_queries (r : Research) (prompt : String) :
    (entry r prompt).queries = r.queries := by
  unfold entry; split <;> rfl

/-- The entry step never changes the `searchResults` field. -/
theorem entry_searchResults (r : Research) (prompt : String) :
    (entry r prompt).searchResults = r.searchResults := by
  unfold entry; split <;> rfl

/-- The entry step never changes the `learnings` field. -/
theorem entry_learnings (r : Research) (prompt : String) :
    (entry r prompt).learnings = r.learnings := by
  unfold entry; split <;> rfl

/-- The entry step never changes the `completedQueries` field. -/
theorem entry_completedQueries (r : Research) (prompt : String) :
    (entry r prompt).completedQueries = r.completedQueries := by
  unfold entry; split <;> rfl

/-- The `query` field after the entry step. -/
theorem entry_query (r : Research) (prompt : String) :
    (entry r prompt).query = if queryIsFalsy r.query then some prompt else r.query := by
  unfold entry; split <;> rfl

/-- The entry step is the identity once the `query` field is set and
non-empty. -/
theorem entry_of_set (r : Research) (prompt : String) (h : queryIsFalsy r.query = false) :
    entry r prompt = r := by
  simp [entry, h]

theorem extends_refl (r : Research) : Extends r r :=
  ⟨rfl, List.prefix_refl _, List.prefix_refl _, List.prefix_refl _⟩

theorem extends_trans {a b c : Research} (h1 : Extends a b) (h2 : Extends b c) :
    Extends a c := by
  obtain ⟨q1, s1, l1, c1⟩ := h1
  obtain ⟨q2, s2, l2, c2⟩ := h2
  exact ⟨q2.trans q1, s1.trans s2, l1.trans l2, c1.trans c2⟩

/-- The recursion leaves a set non-empty `query` untouched and only
appends to the three append-only sequences. -/
theorem deepResearch_extends (o : Oracles) (d : Nat) (prompt : String) (b : Nat)
    (r : Research) (h : queryIsFalsy r.query = false) :
    queryIsFalsy (deepResearch o d prompt b r).1.query = false
    ∧ Extends r (deepResearch o d prompt b r).1 := by
  refine deepResearch_rel o
    (fun a b => queryIsFalsy a.query = false → queryIsFalsy b.query = false ∧ Extends a b)
    (fun a ha => ⟨ha, extends_refl a⟩)
    (fun a b c hab hbc ha =>
      have h1 := hab ha
      have h2 := hbc h1.1
      ⟨h2.1, extends_trans h1.2 h2.2⟩)
    ?_ ?_ ?_ ?_ d prompt b r h
  · intro prompt r hr
    rw [entry_of_set r prompt hr]
    exact ⟨hr, extends_refl r⟩
  · intro qs r hr
    exact ⟨hr, rfl, List.prefix_refl _, List.prefix_refl _, List.prefix_refl _⟩
  · intro q r hr
    exact ⟨hr, rfl, List.prefix_append _ _, List.prefix_refl _, List.prefix_refl _⟩
  · intro q sr _ r2 hr
    exact ⟨hr, rfl, List.prefix_refl _, List.prefix_append _ _, List.prefix_append _ _⟩

/-- A request handled from a record whose `query` is set and
non-empty keeps that `query` and only appends to `searchResults`,
`learnings` and `completedQueries`. -/
theorem agentHandle_extends (o : Oracles) (s : Research) (p : Payload)
    (h : queryIsFalsy s.query = false) :
    queryIsFalsy (agentHandle o s p).query = false ∧ Extends s (agentHandle o s p) := by
  unfold agentHandle
  cases researchSchemaParse p with
  | none => exact ⟨h, extends_refl s⟩
  | some req => exact deepResearch_extends o _ _ _ s h

theorem pairedExt_refl (o : Oracles) (a : Research) : PairedExt o a a :=
  ⟨[], by simp, by simp, by simp⟩

theorem pairedExt_trans (o : Oracles) {a b c : Research}
    (h1 : PairedExt o a b) (h2 : PairedExt o b c) : PairedExt o a c := by
  obtain ⟨ps1, l1, c1, p1⟩ := h1
  obtain ⟨ps2, l2, c2, p2⟩ := h2
  refine ⟨ps1 ++ ps2, ?_, ?_, ?_⟩
  · rw [l2, l1, List.map_append, List.append_assoc]
  · rw [c2, c1, List.map_append, List.append_assoc]
  · intro p hp
    rcases List.mem_append.mp hp with h | h
    exacts [p1 p h, p2 p h]

/-- Every run appends to `learnings` and `completedQueries` in
lockstep: the appended entries come from an ordered list of
`(sub-query, result)` pairs, each produced by a search round for its
sub-query. -/
theorem deepResearch_pairedExt (o : Oracles) (d : Nat) (prompt : String) (b : Nat)
    (r : Research) : PairedExt o r (deepResearch o d prompt b r).1 := by
  refine deepResearch_rel o (PairedExt o) (pairedExt_refl o)
    (fun a b c => pairedExt_trans o) ?_ ?_ ?_ ?_ d prompt b r
  · intro prompt r
    exact ⟨[], by simp [entry_learnings], by simp [entry_completedQueries], by simp⟩
  · intro qs r
    exact ⟨[], by simp, by simp, by simp⟩
  · intro q r
    exact ⟨[], by simp, by simp, by simp⟩
  · intro q sr hprod r2
    refine ⟨[(q, sr)], by simp, by simp, ?_⟩
    intro p hp
    rw [List.mem_singleton] at hp
    subst hp
    exact hprod

/-! ### The claims -/

/-- C1, counterexample: no code-level deduplication precedes the
append.  With a perfectly duplicate-suppressing evaluator, a single
round that finds two documents sharing one URL accepts both — each is
evaluated only against the sources accumulated before the round — so
after the append the record's `searchResults` holds the same URL
twice and the no-duplicate-URL invariant fails. -/
theorem c1_counterexample :
    Suppressing oDup.evalVerdict
    ∧ (deepResearch oDup 1 "goal" 1 accumulatedResearch).2 = none
    ∧ ((deepResearch oDup 1 "goal" 1 accumulatedResearch).1.searchResults.map SearchResult.url)
        = ["https://u", "https://u"]
    ∧ ¬ (["https://u", "https://u"] : List String).Nodup :=
  ⟨fun q r urls h => by simp [oDup, dedupVerdict, h], rfl, rfl, by decide⟩

/-- C1, amended: the only deduplication is the evaluator's
prompt-level check against the sources accumulated before the round.
If the generation capability honors the duplicate-suppression
instruction and, additionally, no single round accepts two results
with the same URL, then the no-duplicate-URL invariant of
`searchResults` is preserved by every `deepResearch` call. -/
theorem c1_nodup (o : Oracles) (hs : Suppressing o.evalVerdict) (hi : IntraNodup o)
    (d b : Nat) (prompt : String) (r : Research) (h : UrlsNodup r) :
    UrlsNodup (deepResearch o d prompt b r).1 := by
  refine deepResearch_rel o (fun a b => UrlsNodup a → UrlsNodup b)
    (fun a ha => ha) (fun a b c hab hbc ha => hbc (hab ha)) ?_ ?_ ?_ ?_ d prompt b r h
  · intro prompt r hr
    unfold UrlsNodup at *
    rw [entry_searchResults]
    exact hr
  · intro qs r hr
    exact hr
  · intro q r hr
    unfold UrlsNodup at *
    show (List.map SearchResult.url (r.searchResults ++
      searchAndProcess o.evalVerdict (o.script q r.searchResults) q r.searchResults)).Nodup
    rw [List.map_append, List.nodup_append]
    refine ⟨hr, hi q r.searchResults, ?_⟩
    intro a ha hb
    obtain ⟨x, hx, rfl⟩ := List.mem_map.mp hb
    exact searchAndProcess_url_not_mem o.evalVerdict hs _ q r.searchResults x hx ha
  · intro q sr _ r2 hr
    exact hr

/-- C1, witness for the amended theorem. -/
theorem c1_witness : UrlsNodup (deepResearch oTriv 2 "goal" 3 accumulatedResearch).1 :=
  c1_nodup oTriv (fun q r urls h => by simp [oTriv, dedupVerdict, h])
    (fun q sources => by simp [oTriv, searchAndProcess])
    2 3 "goal" accumulatedResearch (by simp [UrlsNodup, accumulatedResearch])

/-- C2, counterexample: the record is a module-level value shared by
every request of the process.  After a first request with query `a`
accumulates one result, a second request with query `b` is handled on
the same record: its final state still carries query `a` — not `b` —
and the first request's search result. -/
theorem c2_counterexample :
    agentHandle oSeed accumulatedResearch ⟨some "a", none, none, none⟩ = seededState
    ∧ agentHandle oSeed seededState ⟨some "b", none, none, none⟩ = seededState
    ∧ seededState.query = some "a"
    ∧ (some "a" : Option String) ≠ some "b"
    ∧ seededState.searchResults = [raDoc] :=
  ⟨rfl, rfl, rfl, by decide, rfl⟩

/-- C2, amended: `accumulatedResearch` is a process-wide module-level
singleton, never reset between requests.  Any request handled from a
record state whose `query` is already set (and non-empty) keeps that
query and can only append to the accumulated sequences, so a second
request observes and extends whatever a first request left behind. -/
theorem c2_singleton (o : Oracles) (s : Research) (p : Payload)
    (h : queryIsFalsy s.query = false) :
    (agentHandle o s p).query = s.query
    ∧ s.searchResults <+: (agentHandle o s p).searchResults
    ∧ s.learnings <+: (agentHandle o s p).learnings
    ∧ s.completedQueries <+: (agentHandle o s p).completedQueries :=
  (agentHandle_extends o s p h).2

/-- C2, witness for the amended theorem. -/
theorem c2_witness :
    (agentHandle oTriv seededState ⟨some "b", none, none, none⟩).query = seededState.query :=
  (c2_singleton oTriv seededState ⟨some "b", none, none, none⟩ rfl).1

/-- C3, counterexample: with `depth = 0` on a fresh record the entry
step still runs before the depth test, so the `query` field is
mutated from `undefined` to the prompt: the record is not returned
unchanged. -/
theorem c3_counterexample :
    deepResearch oTriv 0 "q" 3 accumulatedResearch
      = ({ accumulatedResearch with query := some "q" }, none)
    ∧ ({ accumulatedResearch with query := some "q" } : Research).query
        ≠ accumulatedResearch.query :=
  ⟨rfl, by decide⟩

/-- C3, amended: a `depth = 0` call performs no expansion, no search
and no learning extraction and leaves `queries`, `searchResults`,
`learnings` and `completedQueries` unchanged; the `query` field is
set to the prompt when it was still unset or empty, and kept
otherwise. -/
theorem c3_base (o : Oracles) (prompt : String) (b : Nat) (r : Research) :
    deepResearch o 0 prompt b r = (entry r prompt, none)
    ∧ (entry r prompt).queries = r.queries
    ∧ (entry r prompt).searchResults = r.searchResults
    ∧ (entry r prompt).learnings = r.learnings
    ∧ (entry r prompt).completedQueries = r.completedQueries
    ∧ (entry r prompt).query = (if queryIsFalsy r.query then some prompt else r.query) :=
  ⟨rfl, entry_queries r prompt, entry_searchResults r prompt, entry_learnings r prompt,
   entry_completedQueries r prompt, entry_query r prompt⟩

/-- C4: at positive depth the frame recurses through
`deepResearch o d · (ceilHalf b) ·` — depth exactly one less, breadth
`Math.ceil(b / 2)` — a breadth of at least 1 stays at least 1, and
depth 0 is the base case that stops the recursion (which is
structural on the depth budget, hence terminating). -/
theorem c4_budget (o : Oracles) (d b : Nat) (prompt : String) (r : Research) (hb : 1 ≤ b) :
    deepResearch o (d + 1) prompt b r =
      (match generateSearchQueries o.genQueries prompt b with
       | .error e => (entry r prompt, some e)
       | .ok queries =>
         processQueries o (fun newQuery r2 => deepResearch o d newQuery (ceilHalf b) r2)
           prompt queries { entry r prompt with queries := queries })
    ∧ 1 ≤ ceilHalf b
    ∧ deepResearch o 0 prompt b r = (entry r prompt, none) :=
  ⟨deepResearch_succ o d prompt b r, by unfold ceilHalf; omega, rfl⟩

/-- C4, witness. -/
theorem c4_witness : 1 ≤ ceilHalf 3 :=
  (c4_budget oTriv 0 3 "g" accumulatedResearch (by decide)).2.1

/-- C5, counterexample: the zod schema bounds the expansion at the
constants 1 and 5, not at the requested breadth, so a model answer of
five queries to a request of breadth 2 is accepted and returned. -/
theorem c5_counterexample :
    generateSearchQueries genFive "q" 2 = .ok ["a", "b", "c", "d", "e"]
    ∧ ¬ ((["a", "b", "c", "d", "e"] : List String).length ≤ 2) :=
  ⟨rfl, by decide⟩

/-- C5, amended: the Query Expander returns between 1 and 5 queries
inclusive — the fixed schema bounds, not the requested breadth — and
an empty model answer raises a `GenerationError`. -/
theorem c5_bounds (gen : String → List String) (query : String) (n : Nat) :
    (∀ l, generateSearchQueries gen query n = .ok l → 1 ≤ l.length ∧ l.length ≤ 5)
    ∧ (gen (genQueriesPrompt n query) = [] →
        generateSearchQueries gen query n = .error GenError.generation) := by
  constructor
  · intro l hl
    unfold generateSearchQueries at hl
    by_cases hc : 1 ≤ (gen (genQueriesPrompt n query)).length
        ∧ (gen (genQueriesPrompt n query)).length ≤ 5
    · rw [if_pos hc] at hl
      injection hl with hl
      rw [← hl]
      exact hc
    · rw [if_neg hc] at hl
      exact absurd hl (by simp)
  · intro hz
    unfold generateSearchQueries
    rw [hz]
    simp

/-- C5, witness for the amended theorem. -/
theorem c5_witness :
    (1 ≤ (["a"] : List String).length ∧ (["a"] : List String).length ≤ 5)
    ∧ generateSearchQueries (fun _ => []) "q" 3 = .error GenError.generation :=
  ⟨(c5_bounds (fun _ => ["a"]) "q" 3).1 ["a"] rfl, (c5_bounds (fun _ => []) "q" 3).2 rfl⟩

/-- C6, counterexample: the duplicate check lives only in the prompt
text, so the verdict for a candidate whose URL is already accumulated
is whatever the generation capability answers — a capability that
answers `relevant` makes the evaluator return `relevant` for a
duplicate. -/
theorem c6_counterexample :
    evaluateResult (fun _ _ _ => Verdict.relevant) "q" rs1 [rs1] = Verdict.relevant
    ∧ rs1.url ∈ ([rs1] : List SearchResult).map SearchResult.url
    ∧ Verdict.relevant ≠ Verdict.irrelevant :=
  ⟨rfl, by decide, by decide⟩

/-- C6, amended: the evaluator hands the duplicate decision to the
generation capability, passing the existing URLs in the prompt.
Whenever the capability honors the duplicate-suppression instruction,
a candidate whose URL is already among the sources is classified
`irrelevant` (idempotently, the verdict being a pure function of the
prompt data) and is never accepted by a round run against those
sources. -/
theorem c6_suppression (evalVerdict : String → SearchResult → List String → Verdict)
    (q : String) (cand : SearchResult) (sources : List SearchResult)
    (hs : Suppressing evalVerdict)
    (hmem : cand.url ∈ sources.map SearchResult.url) :
    evaluateResult evalVerdict q cand sources = Verdict.irrelevant
    ∧ ∀ script : List RoundStep, cand ∉ searchAndProcess evalVerdict script q sources := by
  refine ⟨hs q cand _ hmem, ?_⟩
  intro script hmem2
  exact searchAndProcess_url_not_mem evalVerdict hs script q sources cand hmem2 hmem

/-- C6, witness for the amended theorem. -/
theorem c6_witness : evaluateResult dedupVerdict "q" rs1 [rs1] = Verdict.irrelevant :=
  (c6_suppression dedupVerdict "q" rs1 [rs1]
    (fun q r urls h => by simp [dedupVerdict, h]) (by decide)).1

/-- C7: every run extends `learnings` and `completedQueries` by the
same number of entries, coming from an ordered list of
`(sub-query, result)` pairs: position by position the appended
completed query is the sub-query from whose search round the result
was accepted and from which the appended learning was extracted; in
particular both sequences always have equal length. -/
theorem c7_pairing (o : Oracles) (d : Nat) (prompt : String) (b : Nat) (r : Research)
    (hlen : r.learnings.length = r.completedQueries.length) :
    (∃ ps : List (String × SearchResult),
      (deepResearch o d prompt b r).1.learnings
          = r.learnings ++ ps.map (fun p => o.genLearning p.1 p.2)
        ∧ (deepResearch o d prompt b r).1.completedQueries
          = r.completedQueries ++ ps.map Prod.fst
        ∧ ∀ p ∈ ps, RoundProduced o p)
    ∧ (deepResearch o d prompt b r).1.learnings.length
        = (deepResearch o d prompt b r).1.completedQueries.length := by
  obtain ⟨ps, h1, h2, h3⟩ := deepResearch_pairedExt o d prompt b r
  refine ⟨⟨ps, h1, h2, h3⟩, ?_⟩
  rw [h1, h2, List.length_append, List.length_append, List.length_map, List.length_map, hlen]

/-- C7, witness. -/
theorem c7_witness :
    (deepResearch oSeed 2 "a" 3 accumulatedResearch).1.learnings.length
      = (deepResearch oSeed 2 "a" 3 accumulatedResearch).1.completedQueries.length :=
  (c7_pairing oSeed 2 "a" 3 accumulatedResearch rfl).2

/-- C8, counterexample: when the expansion capability returns the
empty list the frame fails with a `GenerationError`, but on a fresh
record the entry step has already set the `query` field, so the
record is not unchanged from its pre-call state. -/
theorem c8_counterexample :
    deepResearch oEmptyGen 2 "q" 3 accumulatedResearch
      = ({ accumulatedResearch with query := some "q" }, some GenError.generation)
    ∧ ({ accumulatedResearch with query := some "q" } : Research).query
        ≠ accumulatedResearch.query :=
  ⟨rfl, by decide⟩

/-- C8, amended: an empty expansion makes the frame fail with a
`GenerationError` before the `queries` overwrite, leaving `queries`,
`searchResults`, `learnings` and `completedQueries` unchanged; only
the `query` field may have been set by the entry step of a first
frame. -/
theorem c8_frame (o : Oracles) (d b : Nat) (prompt : String) (r : Research)
    (h : o.genQueries (genQueriesPrompt b prompt) = []) :
    deepResearch o (d + 1) prompt b r = (entry r prompt, some GenError.generation)
    ∧ (entry r prompt).queries = r.queries
    ∧ (entry r prompt).searchResults = r.searchResults
    ∧ (entry r prompt).learnings = r.learnings
    ∧ (entry r prompt).completedQueries = r.completedQueries := by
  refine ⟨?_, entry_queries r prompt, entry_searchResults r prompt,
    entry_learnings r prompt, entry_completedQueries r prompt⟩
  rw [deepResearch_succ]
  have hgen : generateSearchQueries o.genQueries prompt b = .error GenError.generation := by
    unfold generateSearchQueries
    rw [h]
    simp
  rw [hgen]

/-- C8, witness for the amended theorem. -/
theorem c8_witness :
    deepResearch oEmptyGen 1 "g" 2 accumulatedResearch
      = (entry accumulatedResearch "g", some GenError.generation) :=
  (c8_frame oEmptyGen 0 2 "g" accumulatedResearch rfl).1

/-- C9, counterexample: the reflection prompt's goal part is the
current frame's prompt, not the original top-level query.  With an
expansion capability that echoes its prompt, the final record's
`queries` field exposes the deepest expansion prompt of a depth-3 run:
it embeds the level-one frame's reflection prompt `p2Echo`, whose goal
part is the top frame's reflection prompt `p1Echo` — not the original
query `goal` — so it differs from the prompt the claim predicts. -/
theorem c9_counterexample :
    (deepResearch oEcho 3 "goal" 1 accumulatedResearch).1.queries
      = [genQueriesPrompt 1 p2Echo]
    ∧ p2Echo = reflectionPrompt p1Echo [q0Echo, q1Echo] ["f"]
    ∧ p2Echo ≠ reflectionPrompt "goal" [q0Echo, q1Echo] ["f"]
    ∧ p1Echo ≠ "goal" :=
  ⟨rfl, rfl, by decide, by decide⟩

/-- C9, amended: the reflection prompt of each processed result is
built from the current frame's prompt (which is the original goal only
in the top-level frame and the parent's reflection prompt below), the
full `completedQueries` log joined with a comma, and the current
learning's follow-up questions, and it becomes the query of the
recursive call. -/
theorem c9_reflection (o : Oracles) (recur : String → Research → Research × Option GenError)
    (prompt q : String) (sr : SearchResult) (srs : List SearchResult) (r : Research) :
    processResults o recur prompt q (sr :: srs) r =
      (match recur (reflectionPrompt prompt (r.completedQueries ++ [q])
          (o.genLearning q sr).followUpQuestions)
          { r with learnings := r.learnings ++ [o.genLearning q sr],
                   completedQueries := r.completedQueries ++ [q] } with
       | (r2, some e) => (r2, some e)
       | (r2, none) => processResults o recur prompt q srs r2)
    ∧ reflectionPrompt prompt (r.completedQueries ++ [q]) (o.genLearning q sr).followUpQuestions
      = "Overall research goal: " ++ prompt
        ++ "\n          Previous search queries: "
        ++ String.intercalate ", " (r.completedQueries ++ [q])
        ++ "\n   \n          Follow-up questions: "
        ++ String.intercalate ", " (o.genLearning q sr).followUpQuestions
        ++ "\n          " :=
  ⟨processResults_cons o recur prompt q sr srs r, rfl⟩

/-- C10: the request schema spells the optional depth field `deepth`,
so a payload carrying the documented field name `depth` has that field
stripped by the non-strict zod object and the default 2 is used
instead of the supplied value; the same value supplied under `deepth`
is used.  Evaluates the parser at the failing input
`{query: "rust", depth: 4}`. -/
theorem c10_deepth :
    researchSchemaParse ⟨some "rust", some 4, none, none⟩ = some ⟨"rust", none, none⟩
    ∧ agentDepthUsed ⟨some "rust", some 4, none, none⟩ = some 2
    ∧ agentDepthUsed ⟨some "rust", none, some 4, none⟩ = some 4
    ∧ (2 : Int) ≠ 4 :=
  ⟨rfl, rfl, rfl, by decide⟩
